import Mathlib

/-!
Shallow embedding of the core of the Customer_cc complaint pipeline:
the identifier allocator (src/app/id_generator.py), the metadata ledger
normalizer and schema migration (src/app/metadata.py), and the
orchestrator glue that the claims reference (src/app/main.py).

Python strings are Lean `String`s; Python dictionaries are association
lists with unique keys; machine file I/O and exceptions are made explicit
(`Option` / `Except` / an explicit store state).  Timestamp parsing models
CPython `datetime.fromisoformat` / `strptime` year extraction on the
common date shapes the pipeline receives (extended ISO dates with an
optional time and numeric offset, and the four fallback formats listed in
the source); the model validates digit counts, field ranges and
day-of-month exactly as the Python parsers do on those shapes.
-/

namespace CustomerCC

/-- Python `str.strip` default whitespace characters (the ASCII ones). -/
def isPyWs (c : Char) : Bool :=
  c = ' ' || c = Char.ofNat 9 || c = Char.ofNat 10 || c = Char.ofNat 13 ||
  c = Char.ofNat 11 || c = Char.ofNat 12

/-- Strip leading and trailing whitespace from a character list. -/
def stripList (l : List Char) : List Char :=
  ((l.dropWhile isPyWs).reverse.dropWhile isPyWs).reverse

/-- Python `s.strip()`. -/
def pyStrip (s : String) : String := String.mk (stripList s.data)

/-- Python `s.lower()` (ASCII case folding, which covers the labels used). -/
def pyLower (s : String) : String := String.mk (s.data.map Char.toLower)

/-- Is the character an ASCII decimal digit. -/
def isDigitChar (c : Char) : Bool := 48 ≤ c.toNat && c.toNat ≤ 57

/-- Numeric value of an ASCII digit character. -/
def digitVal (c : Char) : Nat := c.toNat - 48

/-- Value of a two-digit character pair. -/
def val2 (a b : Char) : Nat := digitVal a * 10 + digitVal b

/-- Value of a four-digit character quadruple. -/
def val4 (a b c d : Char) : Nat :=
  digitVal a * 1000 + digitVal b * 100 + digitVal c * 10 + digitVal d

/-- Atomic Python values appearing in submission field mappings. -/
inductive PyAtom where
  | none
  | str (s : String)
  | int (n : Int)
  | bool (b : Bool)
deriving DecidableEq

/-- Python values appearing as submission field values: atoms, or a
sequence of atoms (the nesting depth the pipeline's data actually has). -/
inductive PyVal where
  | atom (a : PyAtom)
  | list (xs : List PyAtom)
deriving DecidableEq

/-- The single-quote character used by Python `repr` of strings. -/
def sq : String := String.mk [Char.ofNat 39]

/-- Python `repr` of an atom (string escaping is not modelled; faithful for
strings free of quotes and backslashes, which is all the pipeline data). -/
def pyReprAtom : PyAtom → String
  | PyAtom.none => "None"
  | PyAtom.str s => sq ++ s ++ sq
  | PyAtom.int n => toString n
  | PyAtom.bool b => if b then "True" else "False"

/-- Python `str` of an atom. -/
def pyStrAtom : PyAtom → String
  | PyAtom.str s => s
  | a => pyReprAtom a

/-- Python `str` of a value: strings unchanged, lists rendered as their
`repr`, i.e. bracketed comma-space separated element `repr`s. -/
def pyStr : PyVal → String
  | PyVal.atom a => pyStrAtom a
  | PyVal.list xs => "[" ++ String.intercalate ", " (xs.map pyReprAtom) ++ "]"

/-- Python truthiness of a value. -/
def pyTruthy : PyVal → Bool
  | PyVal.atom PyAtom.none => false
  | PyVal.atom (PyAtom.str s) => !(s == "")
  | PyVal.atom (PyAtom.int n) => !(n == 0)
  | PyVal.atom (PyAtom.bool b) => b
  | PyVal.list xs => !xs.isEmpty

/-- A Python dict with string keys, as an association list (unique keys). -/
abbrev PyDict := List (String × PyVal)

/-- Python `d.get(k)` returning `None` for a missing key. -/
def dictGet (d : PyDict) (k : String) : Option PyVal :=
  (d.find? (fun p => p.1 == k)).map Prod.snd

/-! ## id_generator.py -/

/-- Regex `^CC(?P<year>\d\d\d\d)-(?P<num>\d\d)$` from src/app/id_generator.py,
returning the numeric year and sequence groups on a match. -/
def matchId (s : String) : Option (Nat × Nat) :=
  match s.data with
  | c1 :: c2 :: y1 :: y2 :: y3 :: y4 :: dash :: n1 :: n2 :: [] =>
    if (c1 == 'C') && (c2 == 'C') && (dash == '-') &&
       isDigitChar y1 && isDigitChar y2 && isDigitChar y3 && isDigitChar y4 &&
       isDigitChar n1 && isDigitChar n2 then
      some (val4 y1 y2 y3 y4, val2 n1 n2)
    else Option.none
  | _ => Option.none

/-- Gregorian leap year test, as `datetime` uses. -/
def isLeap (y : Nat) : Bool := y % 4 == 0 && (!(y % 100 == 0) || y % 400 == 0)

/-- Days in a month, as `datetime` validates. -/
def daysInMonth (y m : Nat) : Nat :=
  if m == 2 then (if isLeap y then 29 else 28)
  else if m == 4 || m == 6 || m == 9 || m == 11 then 30
  else 31

/-- Parse exactly four digit characters. -/
def year4 : List Char → Option (Nat × List Char)
  | a :: b :: c :: d :: rest =>
    if isDigitChar a && isDigitChar b && isDigitChar c && isDigitChar d then
      some (val4 a b c d, rest)
    else Option.none
  | _ => Option.none

/-- Parse exactly two digit characters. -/
def twoDigits : List Char → Option (Nat × List Char)
  | a :: b :: rest =>
    if isDigitChar a && isDigitChar b then some (val2 a b, rest) else Option.none
  | _ => Option.none

/-- A run of one to six fraction digits, as `fromisoformat` accepts. -/
def fracDigits (cs : List Char) : Option (List Char) :=
  let digs := cs.takeWhile isDigitChar
  if digs.length = 0 || 6 < digs.length then Option.none
  else some (cs.dropWhile isDigitChar)

/-- Numeric UTC offset tail `+HH:MM` / `-HH:MM` (or nothing) accepted by
`fromisoformat`; the code's `Z`-replacement produces exactly this shape. -/
def offsetOk (cs : List Char) : Bool :=
  match cs with
  | [] => true
  | c :: rest =>
    if c == '+' || c == '-' then
      match twoDigits rest with
      | some (h, r1) =>
        (match r1 with
         | ':' :: r2 =>
           match twoDigits r2 with
           | some (m, r3) => h ≤ 23 && m ≤ 59 && r3.isEmpty
           | Option.none => false
         | _ => false)
      | Option.none => false
    else false

/-- ISO time-of-day tail `HH[:MM[:SS[.ffffff]]]` plus optional offset. -/
def isoTimeOk (cs : List Char) : Bool :=
  match twoDigits cs with
  | Option.none => false
  | some (h, r1) =>
    if 23 < h then false
    else
      match r1 with
      | ':' :: r2 =>
        (match twoDigits r2 with
         | Option.none => false
         | some (mi, r3) =>
           if 59 < mi then false
           else
             match r3 with
             | ':' :: r4 =>
               (match twoDigits r4 with
                | Option.none => false
                | some (s, r5) =>
                  if 59 < s then false
                  else
                    match r5 with
                    | '.' :: r6 =>
                      (match fracDigits r6 with
                       | some r7 => offsetOk r7
                       | Option.none => false)
                    | _ => offsetOk r5)
             | _ => offsetOk r3)
      | _ => offsetOk r1

/-- Year extracted by `datetime.fromisoformat` on extended-format ISO-8601
dates `YYYY-MM-DD`, with an optional `T`/space separated time; `none` when
the parse raises. -/
def isoYear (s : String) : Option Nat :=
  match s.data with
  | y1 :: y2 :: y3 :: y4 :: '-' :: m1 :: m2 :: '-' :: d1 :: d2 :: rest =>
    if isDigitChar y1 && isDigitChar y2 && isDigitChar y3 && isDigitChar y4 &&
       isDigitChar m1 && isDigitChar m2 && isDigitChar d1 && isDigitChar d2 then
      let y := val4 y1 y2 y3 y4
      let m := val2 m1 m2
      let d := val2 d1 d2
      if 1 ≤ y && 1 ≤ m && m ≤ 12 && 1 ≤ d && d ≤ daysInMonth y m then
        match rest with
        | [] => some y
        | 'T' :: t => if isoTimeOk t then some y else Option.none
        | ' ' :: t => if isoTimeOk t then some y else Option.none
        | _ => Option.none
      else Option.none
    else Option.none
  | _ => Option.none

/-- `strptime` numeric field of one or two digits within a value range,
two-digit reading preferred, as the `_strptime` regexes behave; all viable
readings are listed in regex preference order. -/
def num2or1 (lo hi : Nat) (cs : List Char) : List (Nat × List Char) :=
  (match cs with
   | a :: b :: rest =>
     if isDigitChar a && isDigitChar b && lo ≤ val2 a b && val2 a b ≤ hi then
       [(val2 a b, rest)]
     else []
   | _ => []) ++
  (match cs with
   | a :: rest =>
     if isDigitChar a && lo ≤ digitVal a && digitVal a ≤ hi then
       [(digitVal a, rest)]
     else []
   | _ => [])

/-- One-or-more whitespace characters (a literal space in a `strptime`
format string matches any nonempty whitespace run). -/
def wsPlus : List Char → Option (List Char)
  | c :: rest => if isPyWs c then some (rest.dropWhile isPyWs) else Option.none
  | [] => Option.none

/-- A colon followed by a one-or-two digit field. -/
def colonNum (lo hi : Nat) (cs : List Char) : List (Nat × List Char) :=
  match cs with
  | ':' :: r => num2or1 lo hi r
  | _ => []

/-- `%Y-%m-%d` readings: four-digit year, dash, month, dash, day. -/
def ymdCands (cs : List Char) : List ((Nat × Nat × Nat) × List Char) :=
  match year4 cs with
  | Option.none => []
  | some (y, r1) =>
    match r1 with
    | '-' :: r2 =>
      (num2or1 1 12 r2).flatMap (fun mm =>
        match mm.2 with
        | '-' :: r3 => (num2or1 1 31 r3).map (fun dd => ((y, mm.1, dd.1), dd.2))
        | _ => [])
    | _ => []

/-- `%H:%M:%S` readings following a date. -/
def hmsRests (cs : List Char) : List (List Char) :=
  (num2or1 0 23 cs).flatMap (fun h =>
    (colonNum 0 59 h.2).flatMap (fun m =>
      (colonNum 0 59 m.2).map (fun s => s.2)))

/-- `%d<sep>%m<sep>%Y` readings. -/
def dmyCands (sep : Char) (cs : List Char) : List ((Nat × Nat × Nat) × List Char) :=
  (num2or1 1 31 cs).flatMap (fun dd =>
    match dd.2 with
    | c :: r1 =>
      if c == sep then
        (num2or1 1 12 r1).flatMap (fun mm =>
          match mm.2 with
          | c2 :: r2 =>
            if c2 == sep then
              match year4 r2 with
              | some (y, r3) => [((y, mm.1, dd.1), r3)]
              | Option.none => []
            else []
          | _ => [])
      else []
    | _ => [])

/-- The fallback formats tried by `_year_from_timestamp`, in source order. -/
inductive Fmt where
  | ymdHms
  | ymd
  | dmyDot
  | dmySlash
deriving DecidableEq

/-- All regex readings of a format over an input. -/
def fmtCands : Fmt → List Char → List ((Nat × Nat × Nat) × List Char)
  | Fmt.ymdHms, cs =>
    (ymdCands cs).flatMap (fun d =>
      match wsPlus d.2 with
      | some r => (hmsRests r).map (fun rest => (d.1, rest))
      | Option.none => [])
  | Fmt.ymd, cs => ymdCands cs
  | Fmt.dmyDot, cs => dmyCands '.' cs
  | Fmt.dmySlash, cs => dmyCands '/' cs

/-- `datetime` construction validity for a parsed date. -/
def validYMD (y m d : Nat) : Bool := 1 ≤ y && 1 ≤ d && d ≤ daysInMonth y m

/-- Year extracted by `datetime.strptime(s, fmt)`: the first full-input
regex reading, validated by `datetime` construction; `none` on raise. -/
def strptimeYear (f : Fmt) (s : String) : Option Nat :=
  match ((fmtCands f s.data).filter (fun c => c.2.isEmpty)).head? with
  | some (ymd, _) =>
    if validYMD ymd.1 ymd.2.1 ymd.2.2 then some ymd.1 else Option.none
  | Option.none => Option.none

/-- The fallback format list of `_year_from_timestamp`, in source order. -/
def FALLBACK_FORMATS : List Fmt := [Fmt.ymdHms, Fmt.ymd, Fmt.dmyDot, Fmt.dmySlash]

/-- The `for fmt in (...)` loop of `_year_from_timestamp`: first format
whose parse does not raise wins. -/
def tryFormats (fmts : List Fmt) (t : String) : Option Nat :=
  match fmts with
  | [] => Option.none
  | f :: rest =>
    match strptimeYear f t with
    | some y => some y
    | Option.none => tryFormats rest t

/-- Python `ts.replace(Z, +00:00)` — every occurrence replaced. -/
def pyReplaceZ (s : String) : String :=
  String.mk (s.data.flatMap (fun c => if c == 'Z' then "+00:00".data else [c]))

/-- `_year_from_timestamp` from src/app/id_generator.py; `now` is the
current UTC year `datetime.now(timezone.utc).year`. -/
def year_from_timestamp (now : Nat) (ts : String) : Nat :=
  let t := pyStrip ts
  if t = "" then now
  else
    match isoYear (pyReplaceZ t) with
    | some y => y
    | Option.none =>
      match tryFormats FALLBACK_FORMATS t with
      | some y => y
      | Option.none => now

/-- A delimited tabular ledger file: a header row plus data rows, as the
`csv` module presents it. -/
structure CsvFile where
  header : List String
  rows : List (List String)
deriving DecidableEq

/-- The state of the ledger store as `id_generator.py` can encounter it:
file absent, read raising (unreadable or malformed), or readable rows. -/
inductive LedgerStore where
  | absent
  | unreadable
  | readable (f : CsvFile)

/-- `csv.DictReader` cell lookup: pair the header with a row (extra cells
are unreachable by name, short rows give no value) and take the value
under a column name, later duplicate header labels overwriting earlier. -/
def csvGet (header row : List String) (k : String) : Option String :=
  ((header.zip row).reverse.find? (fun p => p.1 == k)).map Prod.snd

/-- Python `x or y` on an optional string: `None` and the falsy empty
string both fall through to the default. -/
def pyOr (o : Option String) (dflt : String) : String :=
  match o with
  | some s => if s = "" then dflt else s
  | Option.none => dflt

/-- One iteration of the scan loop in `_max_seq_for_year`: strip the
`complaint_id` cell, match the id pattern, skip other years, keep the max. -/
def scanStep (year : Nat) (header : List String) (acc : Nat) (row : List String) : Nat :=
  let cid := pyStrip (pyOr (csvGet header row "complaint_id") "")
  match matchId cid with
  | some yn => if yn.1 = year then (if acc < yn.2 then yn.2 else acc) else acc
  | Option.none => acc

/-- `_max_seq_for_year` from src/app/id_generator.py: 0 for an absent file,
0 when reading raises, otherwise the scan fold over the rows. -/
def max_seq_for_year (store : LedgerStore) (year : Nat) : Nat :=
  match store with
  | LedgerStore.absent => 0
  | LedgerStore.unreadable => 0
  | LedgerStore.readable f => f.rows.foldl (scanStep year f.header) 0

/-- Python `{n:02d}` formatting for the sequence number. -/
def fmt02 (n : Nat) : String := if n < 10 then "0" ++ toString n else toString n

/-- The `RuntimeError` raised when the per-year sequence passes 99 (the
spec names it `SequenceExhaustedError`). -/
inductive AllocError where
  | sequenceExhausted (year : Nat)
deriving DecidableEq

/-- The f-string `CC{year}-{next_n:02d}` of `next_complaint_id`. -/
def cidFmt (year n : Nat) : String := "CC" ++ toString year ++ "-" ++ fmt02 n

/-- `next_complaint_id` from src/app/id_generator.py. -/
def next_complaint_id (now : Nat) (store : LedgerStore) (ts : String) :
    Except AllocError String :=
  let year := year_from_timestamp now ts
  let next_n := max_seq_for_year store year + 1
  if 99 < next_n then Except.error (AllocError.sequenceExhausted year)
  else Except.ok (cidFmt year next_n)

/-! ## metadata.py -/

/-- `_pick` from src/app/metadata.py: first key whose value is not `None`
and whose stripped string form is nonempty. -/
def pick (fields : PyDict) : List String → String
  | [] => ""
  | k :: ks =>
    match dictGet fields k with
    | Option.none => pick fields ks
    | some v =>
      if v = PyVal.atom PyAtom.none then pick fields ks
      else
        let s := pyStrip (pyStr v)
        if s = "" then pick fields ks else s

/-- Python string ordering: lexicographic on code points, a proper prefix
ordering before the longer string. -/
def charListLe : List Char → List Char → Bool
  | [], _ => true
  | _ :: _, [] => false
  | a :: as, b :: bs =>
    if a.toNat < b.toNat then true
    else if b.toNat < a.toNat then false
    else charListLe as bs

/-- `strLe s t` is Python `s <= t` on strings. -/
def strLe (s t : String) : Bool := charListLe s.data t.data

/-- Ordered insertion for the key sort. -/
def insertStr (x : String) : List String → List String
  | [] => [x]
  | y :: ys => if strLe x y then x :: y :: ys else y :: insertStr x ys

/-- `sorted(...)` over strings (insertion sort; agrees with Python's sort
on lists of distinct keys). -/
def sortStr : List String → List String
  | [] => []
  | x :: xs => insertStr x (sortStr xs)

/-- `sorted(fields.keys(), key=str)` from `_flatten_kv`. -/
def sortedKeys (fields : PyDict) : List String := sortStr (fields.map Prod.fst)

/-- The pair list built by the `_flatten_kv` loop: over sorted keys, skip
`None` values and values blank after stripping, keep stripped values. -/
def flattenPairs (fields : PyDict) : List (String × String) :=
  (sortedKeys fields).filterMap (fun k =>
    match dictGet fields k with
    | Option.none => Option.none
    | some v =>
      if v = PyVal.atom PyAtom.none then Option.none
      else
        let s := pyStrip (pyStr v)
        if s = "" then Option.none else some (k, s))

/-- `_flatten_kv` from src/app/metadata.py. -/
def flatten_kv (fields : PyDict) : String :=
  String.intercalate " | " ((flattenPairs fields).map (fun p => p.1 ++ "=" ++ p.2))

/-- The fixed ledger column list `CSV_COLUMNS` of src/app/metadata.py. -/
def CSV_COLUMNS : List String :=
  ["complaint_id", "submission_timestamp", "created_at_utc", "recipients",
   "customer_email", "country", "product_name", "lot_serial_no",
   "complaint_type", "pdf_filename", "dropbox_file_path",
   "dropbox_shared_link", "github_run_url", "all_fields_kv"]

/-- The recipients cell: strip entries, drop falsy or blank ones, join. -/
def recipientsJoin (recipients : List String) : String :=
  String.intercalate ", " (recipients.filterMap (fun r =>
    if r = "" then Option.none
    else if pyStrip r = "" then Option.none
    else some (pyStrip r)))

/-- The `customer_email` ledger column of `append_metadata_row`. -/
def customer_email_of (fields : PyDict) : String :=
  pick fields ["email_address", "email", "email_address_2"]

/-- The `country` ledger column of `append_metadata_row`. -/
def country_of (fields : PyDict) : String := pick fields ["country"]

/-- The `product_name` ledger column of `append_metadata_row`. -/
def product_name_of (fields : PyDict) : String :=
  pick fields ["product_name", "product"]

/-- The `lot_serial_no` ledger column of `append_metadata_row`. -/
def lot_serial_no_of (fields : PyDict) : String :=
  pick fields ["lot_serial_no", "lot_serial_number", "lot_serial"]

/-- The `complaint_type` ledger column of `append_metadata_row`. -/
def complaint_type_of (fields : PyDict) : String :=
  pick fields ["complaint_type", "type_of_complaint"]

/-- The row dict built by `append_metadata_row`, in `CSV_COLUMNS` order as
`csv.DictWriter` emits it. -/
def metadataRow (complaint_id submission_timestamp created_at_utc : String)
    (recipients : List String) (fields : PyDict)
    (pdf_filename dropbox_file_path dropbox_shared_link github_run_url : String) :
    List String :=
  [complaint_id, submission_timestamp, created_at_utc,
   recipientsJoin recipients, customer_email_of fields, country_of fields,
   product_name_of fields, lot_serial_no_of fields, complaint_type_of fields,
   pdf_filename, dropbox_file_path, dropbox_shared_link, github_run_url,
   flatten_kv fields]

/-- One migrated cell of `_ensure_header`: known columns carried over via
`(r.get(c) or ...).strip()`, with the legacy `dropbox_folder` column
feeding `dropbox_file_path`. -/
def migCell (header row : List String) (c : String) : String :=
  if c = "dropbox_file_path" then
    pyStrip (pyOr (csvGet header row "dropbox_file_path")
      (pyOr (csvGet header row "dropbox_folder") ""))
  else pyStrip (pyOr (csvGet header row c) "")

/-- One migrated row, written under the current header. -/
def migrateRow (header row : List String) : List String :=
  CSV_COLUMNS.map (migCell header row)

/-- The `_ensure_header` migration of src/app/metadata.py on a readable
file: a file already under the current header is untouched, otherwise all
rows are rewritten under `CSV_COLUMNS` (the rewrite goes through a
temporary file that atomically replaces the original; only the resulting
content is modelled). -/
def migrate (f : CsvFile) : CsvFile :=
  if f.header = CSV_COLUMNS then f
  else { header := CSV_COLUMNS, rows := f.rows.map (migrateRow f.header) }

/-- `append_metadata_row`'s file effect on an existing readable ledger:
ensure the header, then append the new row. -/
def append_metadata_file (f : CsvFile) (row : List String) : CsvFile :=
  let g := migrate f
  { header := g.header, rows := g.rows ++ [row] }

/-! ## main.py -/

/-- The keyword parameters `append_metadata_row` declares (all are
keyword-only; there is no catch-all `**kwargs`). -/
def append_metadata_row_keywords : List String :=
  ["complaint_id", "submission_timestamp", "recipients", "fields",
   "pdf_filename", "dropbox_file_path", "dropbox_shared_link",
   "github_run_url"]

/-- The keyword parameters of `append_metadata_row` without defaults. -/
def append_metadata_row_required : List String :=
  ["complaint_id", "submission_timestamp", "recipients", "fields",
   "pdf_filename"]

/-- The keyword arguments `main` passes to `append_metadata_row`
(src/app/main.py, the metadata step). -/
def main_metadata_call_keywords : List String :=
  ["complaint_id", "submission_timestamp", "recipients", "fields",
   "pdf_filename", "dropbox_file_path", "dropbox_shared_link",
   "github_run_url", "sections"]

/-- The `TypeError` a Python keyword call raises when bindings fail. -/
inductive PyCallError where
  | typeError
deriving DecidableEq

/-- Python keyword-call binding: every passed keyword must be declared and
every required parameter must be passed, else the call raises `TypeError`
before the callee body runs. -/
def kwCallOk (accepted required passed : List String) : Bool :=
  passed.all (fun k => accepted.contains k) &&
  required.all (fun k => passed.contains k)

/-- The pipeline's metadata step (src/app/main.py): the call to
`append_metadata_row` appends a row only if its keyword bindings succeed. -/
def pipeline_metadata_step (f : CsvFile) (row : List String) :
    Except PyCallError CsvFile :=
  if kwCallOk append_metadata_row_keywords append_metadata_row_required
      main_metadata_call_keywords
  then Except.ok (append_metadata_file f row)
  else Except.error PyCallError.typeError

/-- One `{label, value}` row of a submission section. -/
structure SecRow where
  label : PyVal
  value : PyVal

/-- One submission section (only its rows are read by `main.py`). -/
structure Section where
  rows : List SecRow

/-- The inner row scan of `_get_value_from_sections`. -/
def findInRows (wanted : List String) : List SecRow → Option String
  | [] => Option.none
  | r :: rest =>
    if wanted.contains (pyLower (pyStrip (pyStr r.label))) then
      some (pyStrip (pyStr r.value))
    else findInRows wanted rest

/-- The section scan of `_get_value_from_sections`. -/
def findInSections (wanted : List String) : List Section → Option String
  | [] => Option.none
  | sec :: rest =>
    match findInRows wanted sec.rows with
    | some v => some v
    | Option.none => findInSections wanted rest

/-- `_get_value_from_sections` from src/app/main.py: first row over all
sections whose lowered stripped label is among the wanted labels. -/
def get_value_from_sections (sections : List Section) (wanted_labels : List String) :
    String :=
  match sections with
  | [] => ""
  | _ =>
    pyOr (findInSections (wanted_labels.map (fun w => pyLower (pyStrip w))) sections) ""

/-- The key loop of `_derive_customer_email`: first truthy field value. -/
def deriveEmailLoop (fields : PyDict) : List String → Option String
  | [] => Option.none
  | k :: ks =>
    match dictGet fields k with
    | some v => if pyTruthy v then some (pyStrip (pyStr v)) else deriveEmailLoop fields ks
    | Option.none => deriveEmailLoop fields ks

/-- `_derive_customer_email` from src/app/main.py. -/
def derive_customer_email (fields : PyDict) (sections : List Section) : String :=
  match deriveEmailLoop fields
      ["customer_email", "Email Address", "Email", "Customer Email"] with
  | some v => v
  | Option.none =>
    get_value_from_sections sections
      ["Email Address", "Email", "Customer Email", "E-mail"]

/-! ## Spec-side helper notions used to state the claims -/

/-- First-of combinator on optional years, used to state the spec's
ordered attempt sequence (ISO parse, then fallbacks, then current year). -/
def orElseN (a b : Option Nat) : Option Nat :=
  match a with
  | some x => some x
  | Option.none => b

/-- Maximum of a list of naturals (0 for the empty list). -/
def listMax (l : List Nat) : Nat := l.foldr Nat.max 0

/-- The sequence number a ledger row contributes to the allocation scan
for a year: its parsed seq when the stripped `complaint_id` cell matches
the id pattern with that year, nothing otherwise. -/
def matchedSeq (year : Nat) (header row : List String) : Option Nat :=
  match matchId (pyStrip (pyOr (csvGet header row "complaint_id") "")) with
  | some yn => if yn.1 = year then some yn.2 else Option.none
  | Option.none => Option.none

/-- All sequence numbers the rows contribute for a year, in row order. -/
def matchingSeqs (year : Nat) (header : List String) (rows : List (List String)) :
    List Nat :=
  rows.filterMap (matchedSeq year header)

/-! ## Helper lemmas -/

theorem digitChar_isDigit : ∀ k, k < 10 → isDigitChar (Nat.digitChar k) = true := by
  decide

theorem digitChar_val : ∀ k, k < 10 → digitVal (Nat.digitChar k) = k := by
  decide

theorem digitChar_not_ws : ∀ k, k < 10 → isPyWs (Nat.digitChar k) = false := by
  decide

theorem toDigitsCore_succ (b f n : Nat) (acc : List Char) :
    Nat.toDigitsCore b (f + 1) n acc =
      if n / b = 0 then Nat.digitChar (n % b) :: acc
      else Nat.toDigitsCore b f (n / b) (Nat.digitChar (n % b) :: acc) := rfl

theorem toDigitsCore_one (f n : Nat) (acc : List Char) (h : n < 10) (hf : 0 < f) :
    Nat.toDigitsCore 10 f n acc = Nat.digitChar n :: acc := by
  match f, hf with
  | f + 1, _ =>
    rw [toDigitsCore_succ, if_pos (Nat.div_eq_of_lt h), Nat.mod_eq_of_lt h]

theorem toDigitsCore_two (f n : Nat) (acc : List Char) (h1 : 10 ≤ n) (h2 : n < 100)
    (hf : 1 < f) :
    Nat.toDigitsCore 10 f n acc = Nat.digitChar (n / 10) :: Nat.digitChar (n % 10) :: acc := by
  match f, hf with
  | f + 1, hf =>
    rw [toDigitsCore_succ, if_neg (by omega)]
    exact toDigitsCore_one f (n / 10) _ (by omega) (by omega)

theorem toDigitsCore_three (f n : Nat) (acc : List Char) (h1 : 100 ≤ n) (h2 : n < 1000)
    (hf : 2 < f) :
    Nat.toDigitsCore 10 f n acc =
      Nat.digitChar (n / 100) :: Nat.digitChar (n / 10 % 10) :: Nat.digitChar (n % 10) :: acc := by
  match f, hf with
  | f + 1, hf =>
    rw [toDigitsCore_succ, if_neg (by omega)]
    rw [toDigitsCore_two f (n / 10) _ (by omega) (by omega) (by omega)]
    rw [Nat.div_div_eq_div_mul]

theorem toDigitsCore_four (f n : Nat) (acc : List Char) (h1 : 1000 ≤ n) (h2 : n < 10000)
    (hf : 3 < f) :
    Nat.toDigitsCore 10 f n acc =
      Nat.digitChar (n / 1000) :: Nat.digitChar (n / 100 % 10) ::
        Nat.digitChar (n / 10 % 10) :: Nat.digitChar (n % 10) :: acc := by
  match f, hf with
  | f + 1, hf =>
    rw [toDigitsCore_succ, if_neg (by omega)]
    rw [toDigitsCore_three f (n / 10) _ (by omega) (by omega) (by omega)]
    rw [Nat.div_div_eq_div_mul, Nat.div_div_eq_div_mul]

theorem repr_data_one (n : Nat) (h : n < 10) : (toString n).data = [Nat.digitChar n] := by
  show (Nat.repr n).data = _
  unfold Nat.repr Nat.toDigits
  rw [show (List.asString (Nat.toDigitsCore 10 (n + 1) n [])).data =
        Nat.toDigitsCore 10 (n + 1) n [] from rfl]
  exact toDigitsCore_one _ _ _ h (by omega)

theorem repr_data_two (n : Nat) (h1 : 10 ≤ n) (h2 : n < 100) :
    (toString n).data = [Nat.digitChar (n / 10), Nat.digitChar (n % 10)] := by
  show (Nat.repr n).data = _
  unfold Nat.repr Nat.toDigits
  rw [show (List.asString (Nat.toDigitsCore 10 (n + 1) n [])).data =
        Nat.toDigitsCore 10 (n + 1) n [] from rfl]
  exact toDigitsCore_two _ _ _ h1 h2 (by omega)

theorem repr_data_four (n : Nat) (h1 : 1000 ≤ n) (h2 : n < 10000) :
    (toString n).data =
      [Nat.digitChar (n / 1000), Nat.digitChar (n / 100 % 10),
       Nat.digitChar (n / 10 % 10), Nat.digitChar (n % 10)] := by
  show (Nat.repr n).data = _
  unfold Nat.repr Nat.toDigits
  rw [show (List.asString (Nat.toDigitsCore 10 (n + 1) n [])).data =
        Nat.toDigitsCore 10 (n + 1) n [] from rfl]
  exact toDigitsCore_four _ _ _ h1 h2 (by omega)

theorem fmt02_data (n : Nat) (h2 : n ≤ 99) :
    (fmt02 n).data = [Nat.digitChar (n / 10), Nat.digitChar (n % 10)] := by
  unfold fmt02
  by_cases h : n < 10
  · rw [if_pos h, String.data_append, repr_data_one n h]
    have : n / 10 = 0 := Nat.div_eq_of_lt h
    rw [this, Nat.mod_eq_of_lt h]
    rfl
  · rw [if_neg h]
    exact repr_data_two n (by omega) (by omega)

theorem cidFmt_data (y n : Nat) (hy1 : 1000 ≤ y) (hy2 : y ≤ 9999) (hn2 : n ≤ 99) :
    (cidFmt y n).data =
      'C' :: 'C' :: Nat.digitChar (y / 1000) :: Nat.digitChar (y / 100 % 10) ::
        Nat.digitChar (y / 10 % 10) :: Nat.digitChar (y % 10) :: '-' ::
        Nat.digitChar (n / 10) :: Nat.digitChar (n % 10) :: [] := by
  unfold cidFmt
  rw [String.data_append, String.data_append, String.data_append,
    repr_data_four y hy1 (by omega), fmt02_data n hn2]
  rfl

theorem stripList_sandwich (a z : Char) (m : List Char)
    (ha : isPyWs a = false) (hz : isPyWs z = false) :
    stripList (a :: (m ++ [z])) = a :: (m ++ [z]) := by
  unfold stripList
  rw [List.dropWhile_cons, if_neg (by simp [ha])]
  rw [List.reverse_cons, List.reverse_append, List.reverse_singleton,
    List.singleton_append, List.cons_append]
  rw [List.dropWhile_cons, if_neg (by simp [hz])]
  simp

theorem matchId_cidFmt (y n : Nat) (hy1 : 1000 ≤ y) (hy2 : y ≤ 9999)
    (hn2 : n ≤ 99) :
    matchId (cidFmt y n) = some (y, n) := by
  unfold matchId
  rw [cidFmt_data y n hy1 hy2 hn2]
  dsimp only
  have hcond : (('C' == 'C') && ('C' == 'C') && ('-' == '-') &&
      isDigitChar (Nat.digitChar (y / 1000)) && isDigitChar (Nat.digitChar (y / 100 % 10)) &&
      isDigitChar (Nat.digitChar (y / 10 % 10)) && isDigitChar (Nat.digitChar (y % 10)) &&
      isDigitChar (Nat.digitChar (n / 10)) && isDigitChar (Nat.digitChar (n % 10))) = true := by
    rw [digitChar_isDigit (y / 1000) (by omega), digitChar_isDigit (y / 100 % 10) (by omega),
      digitChar_isDigit (y / 10 % 10) (by omega), digitChar_isDigit (y % 10) (by omega),
      digitChar_isDigit (n / 10) (by omega), digitChar_isDigit (n % 10) (by omega)]
    rfl
  rw [if_pos hcond]
  unfold val4 val2
  rw [digitChar_val (y / 1000) (by omega), digitChar_val (y / 100 % 10) (by omega),
    digitChar_val (y / 10 % 10) (by omega), digitChar_val (y % 10) (by omega),
    digitChar_val (n / 10) (by omega), digitChar_val (n % 10) (by omega)]
  have e1 : y / 1000 * 1000 + y / 100 % 10 * 100 + y / 10 % 10 * 10 + y % 10 = y := by omega
  have e2 : n / 10 * 10 + n % 10 = n := by omega
  rw [e1, e2]

theorem pyStrip_cidFmt (y n : Nat) (hy1 : 1000 ≤ y) (hy2 : y ≤ 9999) (hn2 : n ≤ 99) :
    pyStrip (cidFmt y n) = cidFmt y n := by
  unfold pyStrip
  rw [cidFmt_data y n hy1 hy2 hn2]
  rw [show ('C' :: 'C' :: Nat.digitChar (y / 1000) :: Nat.digitChar (y / 100 % 10) ::
        Nat.digitChar (y / 10 % 10) :: Nat.digitChar (y % 10) :: '-' ::
        Nat.digitChar (n / 10) :: Nat.digitChar (n % 10) :: []) =
      'C' :: (('C' :: Nat.digitChar (y / 1000) :: Nat.digitChar (y / 100 % 10) ::
        Nat.digitChar (y / 10 % 10) :: Nat.digitChar (y % 10) :: '-' ::
        Nat.digitChar (n / 10) :: []) ++ [Nat.digitChar (n % 10)]) from rfl]
  rw [stripList_sandwich _ _ _ (by decide) (digitChar_not_ws (n % 10) (by omega))]
  rw [← List.cons_append]
  rw [show ('C' :: 'C' :: Nat.digitChar (y / 1000) :: Nat.digitChar (y / 100 % 10) ::
        Nat.digitChar (y / 10 % 10) :: Nat.digitChar (y % 10) :: '-' ::
        Nat.digitChar (n / 10) :: []) ++ [Nat.digitChar (n % 10)] =
      ('C' :: 'C' :: Nat.digitChar (y / 1000) :: Nat.digitChar (y / 100 % 10) ::
        Nat.digitChar (y / 10 % 10) :: Nat.digitChar (y % 10) :: '-' ::
        Nat.digitChar (n / 10) :: Nat.digitChar (n % 10) :: []) from rfl]
  rw [← cidFmt_data y n hy1 hy2 hn2]

theorem cidFmt_ne_empty (y n : Nat) : cidFmt y n ≠ "" := by
  intro h
  have : (cidFmt y n).data = [] := by rw [h]
  unfold cidFmt at this
  rw [String.data_append, String.data_append, String.data_append] at this
  simp at this

theorem scanStep_eq_max (year : Nat) (header : List String) (acc : Nat)
    (row : List String) :
    scanStep year header acc row = Nat.max acc ((matchedSeq year header row).getD 0) := by
  simp only [scanStep, matchedSeq]
  cases h : matchId (pyStrip (pyOr (csvGet header row "complaint_id") "")) with
  | none => simp
  | some yn =>
    dsimp only
    by_cases hy : yn.1 = year
    · rw [if_pos hy, if_pos hy, Option.getD_some]
      rcases Nat.lt_or_ge acc yn.2 with hlt | hge
      · rw [if_pos hlt]
        exact (max_eq_right (Nat.le_of_lt hlt)).symm
      · rw [if_neg (by omega)]
        exact (max_eq_left hge).symm
    · rw [if_neg hy, if_neg hy]
      simp

theorem foldl_scanStep (year : Nat) (header : List String) (rows : List (List String))
    (a : Nat) :
    rows.foldl (scanStep year header) a = Nat.max a (listMax (matchingSeqs year header rows)) := by
  induction rows generalizing a with
  | nil => simp [matchingSeqs, listMax]
  | cons r rs ih =>
    rw [List.foldl_cons, ih, scanStep_eq_max]
    unfold matchingSeqs listMax
    rw [List.filterMap_cons]
    cases h : matchedSeq year header r with
    | none => simp [h]
    | some n =>
      simp only [Option.getD_some, List.foldr_cons]
      exact Nat.max_assoc _ _ _

theorem max_seq_eq_listMax (year : Nat) (f : CsvFile) :
    max_seq_for_year (LedgerStore.readable f) year =
      listMax (matchingSeqs year f.header f.rows) := by
  show f.rows.foldl (scanStep year f.header) 0 = _
  rw [foldl_scanStep]
  exact Nat.zero_max _

theorem le_listMax_of_mem (n : Nat) (l : List Nat) (h : n ∈ l) : n ≤ listMax l := by
  induction l with
  | nil => cases h
  | cons m ms ih =>
    unfold listMax at ih ⊢
    rw [List.foldr_cons]
    rcases List.mem_cons.mp h with rfl | hm
    · exact Nat.le_max_left _ _
    · exact Nat.le_trans (ih hm) (Nat.le_max_right _ _)

theorem orElseN_none (b : Option Nat) : orElseN Option.none b = b := rfl

theorem orElseN_some (x : Nat) (b : Option Nat) : orElseN (some x) b = some x := rfl

theorem tryFormats_chain (t : String) :
    tryFormats FALLBACK_FORMATS t =
      orElseN (strptimeYear Fmt.ymdHms t)
        (orElseN (strptimeYear Fmt.ymd t)
          (orElseN (strptimeYear Fmt.dmyDot t) (strptimeYear Fmt.dmySlash t))) := by
  unfold FALLBACK_FORMATS
  cases h1 : strptimeYear Fmt.ymdHms t <;>
    cases h2 : strptimeYear Fmt.ymd t <;>
      cases h3 : strptimeYear Fmt.dmyDot t <;>
        cases h4 : strptimeYear Fmt.dmySlash t <;>
          simp [tryFormats, orElseN, h1, h2, h3, h4]

/-! ## Claim theorems -/

/-- Claim C2: for every run reaching the metadata step, the orchestrator
passes the keyword argument `sections` to `append_metadata_row`, whose
signature does not declare it, so the call raises `TypeError` and the
pipeline never appends an audit row to the ledger. -/
theorem c2_metadata_call_type_error :
    "sections" ∈ main_metadata_call_keywords ∧
    "sections" ∉ append_metadata_row_keywords ∧
    ∀ (f : CsvFile) (row : List String),
      pipeline_metadata_step f row = Except.error PyCallError.typeError := by
  refine ⟨by decide, by decide, fun f row => rfl⟩

/-- Claim C4: allocation fails with the sequence-exhausted error exactly
when the scanned maximum sequence for the derived year is at least 99, and
for a smaller maximum it returns normally; in particular with `CC2025-99`
present a 2025 allocation raises. -/
theorem c4_sequence_exhaustion (now : Nat) (store : LedgerStore) (ts : String) :
    (next_complaint_id now store ts =
        Except.error (AllocError.sequenceExhausted (year_from_timestamp now ts)) ↔
      99 ≤ max_seq_for_year store (year_from_timestamp now ts)) ∧
    (max_seq_for_year store (year_from_timestamp now ts) < 99 →
      next_complaint_id now store ts =
        Except.ok (cidFmt (year_from_timestamp now ts)
          (max_seq_for_year store (year_from_timestamp now ts) + 1))) ∧
    next_complaint_id 2026
        (LedgerStore.readable ⟨["complaint_id"], [["CC2025-99"]]⟩) "2025-01-01" =
      Except.error (AllocError.sequenceExhausted 2025) := by
  refine ⟨⟨?_, ?_⟩, ?_, rfl⟩
  · intro h
    simp only [next_complaint_id] at h
    by_cases hc : 99 < max_seq_for_year store (year_from_timestamp now ts) + 1
    · omega
    · rw [if_neg hc] at h
      exact Except.noConfusion h
  · intro h
    simp only [next_complaint_id]
    rw [if_pos (by omega)]
  · intro h
    simp only [next_complaint_id]
    rw [if_neg (by omega)]

/-- Claim C7: during the allocation scan, every row whose `complaint_id`
does not match the pattern, or whose parsed year differs from the derived
year, is ignored without error, and an absent or unreadable/malformed
store scans to a maximum sequence of 0. -/
theorem c7_scan_ignores_and_fails_safe (year : Nat) (header : List String)
    (pre post : List (List String)) (row : List String)
    (h : matchId (pyStrip (pyOr (csvGet header row "complaint_id") "")) = Option.none ∨
      ∃ yn, matchId (pyStrip (pyOr (csvGet header row "complaint_id") "")) = some yn ∧
        yn.1 ≠ year) :
    max_seq_for_year (LedgerStore.readable ⟨header, pre ++ row :: post⟩) year =
      max_seq_for_year (LedgerStore.readable ⟨header, pre ++ post⟩) year ∧
    max_seq_for_year LedgerStore.unreadable year = 0 ∧
    max_seq_for_year LedgerStore.absent year = 0 := by
  refine ⟨?_, rfl, rfl⟩
  have hstep : ∀ acc, scanStep year header acc row = acc := by
    intro acc
    simp only [scanStep]
    rcases h with h | ⟨yn, hm, hy⟩
    · rw [h]
    · rw [hm]
      dsimp only
      rw [if_neg hy]
  show (pre ++ row :: post).foldl (scanStep year header) 0 =
    (pre ++ post).foldl (scanStep year header) 0
  rw [List.foldl_append, List.foldl_append, List.foldl_cons, hstep]

/-- Claim C8: year derivation from the submission timestamp is total and
never fails the caller: it attempts the ISO-8601 parse (with `Z` replaced
by the UTC offset `+00:00`) first, then the fallback formats in their
listed order, and defaults to the current UTC year. -/
theorem c8_year_derivation_total (now : Nat) (ts : String) :
    year_from_timestamp now ts =
      (orElseN (isoYear (pyReplaceZ (pyStrip ts)))
        (orElseN (strptimeYear Fmt.ymdHms (pyStrip ts))
          (orElseN (strptimeYear Fmt.ymd (pyStrip ts))
            (orElseN (strptimeYear Fmt.dmyDot (pyStrip ts))
              (strptimeYear Fmt.dmySlash (pyStrip ts)))))).getD now := by
  simp only [year_from_timestamp]
  by_cases h : pyStrip ts = ""
  · rw [if_pos h, h]
    rfl
  · rw [if_neg h, tryFormats_chain]
    cases hiso : isoYear (pyReplaceZ (pyStrip ts)) with
    | some y => simp [hiso, orElseN]
    | none =>
      cases hc : orElseN (strptimeYear Fmt.ymdHms (pyStrip ts))
          (orElseN (strptimeYear Fmt.ymd (pyStrip ts))
            (orElseN (strptimeYear Fmt.dmyDot (pyStrip ts))
              (strptimeYear Fmt.dmySlash (pyStrip ts)))) with
      | some y => simp [hiso, hc, orElseN]
      | none => simp [hiso, hc, orElseN]

/-- Claim C1 counterexample: for the timestamp `0500-06-01` (derived year
500) a first allocation against an empty consistent ledger yields
`CC500-01`, and after that row is appended a second sequential allocation
yields `CC500-01` again, not `CC500-02` — identifiers allocated
sequentially within one year are neither unique nor strictly increasing. -/
theorem c1_counterexample :
    next_complaint_id 2025 (LedgerStore.readable ⟨["complaint_id"], []⟩) "0500-06-01" =
      Except.ok "CC500-01" ∧
    next_complaint_id 2025 (LedgerStore.readable ⟨["complaint_id"], [["CC500-01"]]⟩)
        "0500-06-01" = Except.ok "CC500-01" ∧
    ("CC500-01" : String) ≠ "CC500-02" :=
  ⟨rfl, rfl, by decide⟩

/-- Claim C3 counterexample: with fields containing the key `Email` and no
sections, the `customer_email` ledger column resolves to the empty string,
not `a@b.com` (the configured aliases are lowercase snake_case and matched
case-sensitively), and with empty fields the `country` column is the empty
string no matter what sections contain (the column resolver never consults
sections). -/
theorem c3_counterexample :
    customer_email_of [("Email", PyVal.atom (PyAtom.str "a@b.com"))] = "" ∧
    ("" : String) ≠ "a@b.com" ∧
    country_of [] = "" ∧
    ("" : String) ≠ "IL" :=
  ⟨rfl, by decide, rfl, by decide⟩

/-- Claim C5 counterexample: migrating an old-schema ledger whose
`complaint_id` cell is padded with spaces rewrites the cell stripped, so a
value of a column present in both schemas is not carried over verbatim. -/
theorem c5_counterexample :
    (migrate ⟨["complaint_id", "legacy_note"], [[" A ", "y"]]⟩).rows =
      [["A", "", "", "", "", "", "", "", "", "", "", "", "", ""]] ∧
    (" A " : String) ≠ "A" :=
  ⟨rfl, by decide⟩

/-- Claim C6 counterexample: the overflow column drops a field whose value
is the empty string — two different submissions produce the same
`all_fields_kv` — so the column does not preserve the complete original
field set. -/
theorem c6_counterexample :
    flatten_kv [("a", PyVal.atom (PyAtom.str ""))] = flatten_kv [] ∧
    ([("a", PyVal.atom (PyAtom.str ""))] : PyDict) ≠ [] :=
  ⟨rfl, by decide⟩

/-- Claim C9 counterexample: a sequence value is rendered through Python
`str`, i.e. as a bracketed list of quoted element representations, not as
a comma-joined list of its elements. -/
theorem c9_counterexample :
    pick [("k", PyVal.list [PyAtom.str "a", PyAtom.str "b"])] ["k"] =
      "[" ++ sq ++ "a" ++ sq ++ ", " ++ sq ++ "b" ++ sq ++ "]" ∧
    pick [("k", PyVal.list [PyAtom.str "a", PyAtom.str "b"])] ["k"] ≠ "a, b" ∧
    pick [("k", PyVal.list [PyAtom.str "a", PyAtom.str "b"])] ["k"] ≠ "a,b" :=
  ⟨rfl, by decide, by decide⟩

/-- Claim C10 counterexample: for the timestamp `0500-06-01` the allocator
returns `CC500-01`, whose year part has three digits, so the identifier is
not of the form `CC<4 digits>-<2 digits>` — its own scan pattern rejects
it. -/
theorem c10_counterexample :
    next_complaint_id 2025 LedgerStore.absent "0500-06-01" = Except.ok "CC500-01" ∧
    matchId "CC500-01" = Option.none :=
  ⟨rfl, rfl⟩

/-- Claim C10 (amended): every successful allocation returns
`CC` + `str(year)` + `-` + two-digit seq with seq in [1, 99]; the year is
rendered by `str` without padding, so the identifier matches the claimed
`CC<4 digits>-<2 digits>` shape whenever the derived year lies in
[1000, 9999] (and not otherwise, as the counterexample shows). -/
theorem c10_format_amended (now : Nat) (store : LedgerStore) (ts : String)
    (cid : String)
    (h : next_complaint_id now store ts = Except.ok cid) :
    cid = cidFmt (year_from_timestamp now ts)
        (max_seq_for_year store (year_from_timestamp now ts) + 1) ∧
    max_seq_for_year store (year_from_timestamp now ts) + 1 ≤ 99 ∧
    (1000 ≤ year_from_timestamp now ts → year_from_timestamp now ts ≤ 9999 →
      matchId cid = some (year_from_timestamp now ts,
        max_seq_for_year store (year_from_timestamp now ts) + 1)) := by
  simp only [next_complaint_id] at h
  by_cases hc : 99 < max_seq_for_year store (year_from_timestamp now ts) + 1
  · rw [if_pos hc] at h
    exact Except.noConfusion h
  · rw [if_neg hc] at h
    injection h with h2
    refine ⟨h2.symm, by omega, fun hy1 hy2 => ?_⟩
    rw [← h2]
    exact matchId_cidFmt _ _ hy1 hy2 (by omega)

/-- Claim C10 witness: a successful allocation whose id matches the
4-digit pattern. -/
theorem c10_witness : matchId "CC2025-01" = some (2025, 1) :=
  (c10_format_amended 2025 LedgerStore.absent "2025-01-01" "CC2025-01" rfl).2.2
    (by decide) (by decide)

/-- Claim C9 (amended): in normalization every non-string field value is
stringified via Python `str`, a `None` or missing value yields the empty
string, and a sequence value is rendered as its Python list
representation — bracketed, comma-space separated element `repr`s — not
as a bare comma-joined list of elements. -/
theorem c9_stringification_amended (fields : PyDict) (k : String) :
    (dictGet fields k = Option.none → pick fields [k] = "") ∧
    (dictGet fields k = some (PyVal.atom PyAtom.none) → pick fields [k] = "") ∧
    (∀ v, dictGet fields k = some v → v ≠ PyVal.atom PyAtom.none →
      pick fields [k] = pyStrip (pyStr v)) ∧
    (∀ xs, dictGet fields k = some (PyVal.list xs) →
      pick fields [k] = "[" ++ String.intercalate ", " (xs.map pyReprAtom) ++ "]") := by
  have hsome : ∀ v, dictGet fields k = some v → v ≠ PyVal.atom PyAtom.none →
      pick fields [k] = pyStrip (pyStr v) := by
    intro v hv hne
    simp only [pick]
    rw [hv]
    dsimp only
    rw [if_neg hne]
    by_cases hs : pyStrip (pyStr v) = ""
    · rw [if_pos hs, hs]
    · rw [if_neg hs]
  refine ⟨?_, ?_, hsome, ?_⟩
  · intro hnone
    simp only [pick]
    rw [hnone]
  · intro hv
    simp only [pick]
    rw [hv]
    dsimp only
    rw [if_pos rfl]
  · intro xs hv
    rw [hsome (PyVal.list xs) hv (fun hh => PyVal.noConfusion hh)]
    show pyStrip ("[" ++ String.intercalate ", " (xs.map pyReprAtom) ++ "]") = _
    unfold pyStrip
    have hd : ("[" ++ String.intercalate ", " (xs.map pyReprAtom) ++ "]").data =
        '[' :: ((String.intercalate ", " (xs.map pyReprAtom)).data ++ [']']) := by
      rw [String.data_append, String.data_append]
      simp
    rw [hd, stripList_sandwich _ _ _ (by decide) (by decide), ← hd]

/-- Claim C9 witness: a list-valued field rendered through `str`. -/
theorem c9_witness :
    pick [("k", PyVal.list [PyAtom.int 1, PyAtom.int 2])] ["k"] =
      "[" ++ String.intercalate ", " ([PyAtom.int 1, PyAtom.int 2].map pyReprAtom) ++ "]" :=
  (c9_stringification_amended [("k", PyVal.list [PyAtom.int 1, PyAtom.int 2])] "k").2.2.2
    [PyAtom.int 1, PyAtom.int 2] rfl

/-- Claim C3 (amended): each normalized ledger column is resolved by
`_pick`, trying its configured lowercase snake_case alias keys
case-sensitively against the fields mapping only, first value that is not
`None` and is nonempty after stripping winning; `append_metadata_row`
never consults the sections. Hence fields containing only the key `Email`
yield an empty `customer_email` column, while the orchestrator's separate
`_derive_customer_email` — the only place sections are consulted, with
case-insensitive label matching — resolves `a@b.com` from the same
fields, and empty fields yield an empty `country` column regardless of
sections. -/
theorem c3_alias_resolution_amended (fields : PyDict) (k : String)
    (ks : List String) (v : PyVal) :
    (dictGet fields k = some v → v ≠ PyVal.atom PyAtom.none →
      pyStrip (pyStr v) ≠ "" → pick fields (k :: ks) = pyStrip (pyStr v)) ∧
    (dictGet fields k = Option.none → pick fields (k :: ks) = pick fields ks) ∧
    (dictGet fields k = some (PyVal.atom PyAtom.none) →
      pick fields (k :: ks) = pick fields ks) ∧
    (dictGet fields k = some v → pyStrip (pyStr v) = "" →
      pick fields (k :: ks) = pick fields ks) ∧
    customer_email_of [("Email", PyVal.atom (PyAtom.str "a@b.com"))] = "" ∧
    derive_customer_email [("Email", PyVal.atom (PyAtom.str "a@b.com"))] [] = "a@b.com" ∧
    country_of [] = "" ∧
    derive_customer_email []
        [⟨[⟨PyVal.atom (PyAtom.str "E-MAIL"), PyVal.atom (PyAtom.str "x@y.z")⟩]⟩] =
      "x@y.z" := by
  refine ⟨?_, ?_, ?_, ?_, rfl, rfl, rfl, rfl⟩
  · intro hv hne hs
    simp only [pick]
    rw [hv]
    dsimp only
    rw [if_neg hne, if_neg hs]
  · intro hnone
    simp only [pick]
    rw [hnone]
  · intro hv
    simp only [pick]
    rw [hv]
    dsimp only
    rw [if_pos rfl]
  · intro hv hs
    simp only [pick]
    rw [hv]
    dsimp only
    by_cases hne : v = PyVal.atom PyAtom.none
    · rw [if_pos hne]
    · rw [if_neg hne, if_pos hs]

/-- Claim C3 witness: the first-nonempty-match rule applied at a concrete
field set. -/
theorem c3_witness :
    pick [("email", PyVal.atom (PyAtom.str "a@b.com"))] ["email", "email_address_2"] =
      pyStrip (pyStr (PyVal.atom (PyAtom.str "a@b.com"))) :=
  (c3_alias_resolution_amended [("email", PyVal.atom (PyAtom.str "a@b.com"))] "email"
      ["email_address_2"] (PyVal.atom (PyAtom.str "a@b.com"))).1 rfl
    (by decide) (by decide)

theorem csvGet_eq_none_of_not_mem (header row : List String) (c : String)
    (h : c ∉ header) : csvGet header row c = Option.none := by
  unfold csvGet
  have hf : (header.zip row).reverse.find? (fun p => p.1 == c) = Option.none := by
    rw [List.find?_eq_none]
    intro p hp hbeq
    rw [List.mem_reverse] at hp
    exact h (eq_of_beq hbeq ▸ (List.of_mem_zip hp).1)
  rw [hf]
  rfl

/-- Claim C5 (amended): appending to a ledger written under an old column
set first migrates it: the rewritten file (produced at a temporary path
that atomically replaces the original) has exactly the current fixed
column list as header, one migrated row per historical row, each with
exactly one cell per current column; columns absent from the old schema
become the empty string, old columns not in the current schema are
dropped, and values of columns present in both schemas are carried over
stripped of surrounding whitespace (with the legacy `dropbox_folder`
column feeding `dropbox_file_path`), not verbatim. -/
theorem c5_migration_amended (f : CsvFile) (h : f.header ≠ CSV_COLUMNS) :
    (migrate f).header = CSV_COLUMNS ∧
    (migrate f).rows.length = f.rows.length ∧
    (∀ r ∈ f.rows, (migrateRow f.header r).length = CSV_COLUMNS.length) ∧
    (∀ (r : List String) (i : Nat), (migrateRow f.header r)[i]? =
      (CSV_COLUMNS[i]?).map (migCell f.header r)) ∧
    (∀ (r : List String) (c : String), c ≠ "dropbox_file_path" →
      migCell f.header r c = pyStrip (pyOr (csvGet f.header r c) "")) ∧
    (∀ (r : List String) (c : String), c ∉ f.header → c ≠ "dropbox_file_path" →
      migCell f.header r c = "") ∧
    (∀ row2, (append_metadata_file f row2).header = CSV_COLUMNS ∧
      (append_metadata_file f row2).rows =
        f.rows.map (migrateRow f.header) ++ [row2]) := by
  have hm : migrate f =
      { header := CSV_COLUMNS, rows := f.rows.map (migrateRow f.header) } := by
    unfold migrate
    rw [if_neg h]
  refine ⟨by rw [hm], by rw [hm]; exact List.length_map _ _, ?_, ?_, ?_, ?_, ?_⟩
  · intro r _
    unfold migrateRow
    exact List.length_map _ _
  · intro r i
    unfold migrateRow
    exact List.getElem?_map _ _ _
  · intro r c hdfp
    unfold migCell
    rw [if_neg hdfp]
  · intro r c hmem hdfp
    unfold migCell
    rw [if_neg hdfp, csvGet_eq_none_of_not_mem _ _ _ hmem]
    rfl
  · intro row2
    unfold append_metadata_file
    rw [hm]
    exact ⟨rfl, rfl⟩

/-- Claim C5 witness: migration of a concrete old-schema file. -/
theorem c5_witness :
    (migrate ⟨["complaint_id", "legacy_note"], [["CC2024-01", "y"]]⟩).header =
      CSV_COLUMNS :=
  (c5_migration_amended ⟨["complaint_id", "legacy_note"], [["CC2024-01", "y"]]⟩
    (by decide)).1

theorem mem_insertStr (a x : String) (l : List String) :
    a ∈ insertStr x l ↔ a = x ∨ a ∈ l := by
  induction l with
  | nil => simp [insertStr]
  | cons y ys ih =>
    unfold insertStr
    by_cases hle : strLe x y
    · rw [if_pos hle]
      simp [List.mem_cons]
    · rw [if_neg hle]
      simp only [List.mem_cons, ih]
      tauto

theorem mem_sortStr (a : String) (l : List String) : a ∈ sortStr l ↔ a ∈ l := by
  induction l with
  | nil => simp [sortStr]
  | cons x xs ih =>
    unfold sortStr
    rw [mem_insertStr, ih]
    simp [List.mem_cons]

theorem dictGet_eq_some_iff (d : PyDict) (hnd : (d.map Prod.fst).Nodup) (k : String)
    (v : PyVal) : dictGet d k = some v ↔ (k, v) ∈ d := by
  induction d with
  | nil => simp [dictGet]
  | cons p rest ih =>
    rw [List.map_cons] at hnd
    have hnd2 := List.nodup_cons.mp hnd
    by_cases hb : p.1 == k
    · have hk : p.1 = k := eq_of_beq hb
      unfold dictGet
      rw [show List.find? (fun q => q.1 == k) (p :: rest) = some p from
        List.find?_cons_of_pos _ hb]
      rw [show Option.map Prod.snd (some p) = some p.2 from rfl]
      constructor
      · intro hv
        injection hv with hv
        have he : (k, v) = p := by
          rw [← hk, ← hv]
        rw [he]
        exact List.mem_cons_self _ _
      · intro hm
        rcases List.mem_cons.mp hm with he | hm2
        · rw [← he]
        · exfalso
          exact hnd2.1 (hk ▸ List.mem_map_of_mem Prod.fst hm2 : p.1 ∈ rest.map Prod.fst)
    · unfold dictGet
      rw [show List.find? (fun q => q.1 == k) (p :: rest) =
          List.find? (fun q => q.1 == k) rest from
        List.find?_cons_of_neg _ (by simpa using hb)]
      rw [show ((rest.find? (fun q => q.1 == k)).map Prod.snd = some v) ↔
          (dictGet rest k = some v) from Iff.rfl]
      rw [ih hnd2.2]
      constructor
      · intro hm
        exact List.mem_cons_of_mem _ hm
      · intro hm
        rcases List.mem_cons.mp hm with he | hm2
        · exfalso
          apply hb
          rw [← he]
          exact beq_self_eq_true k
        · exact hm2

theorem mem_flattenPairs_iff (fields : PyDict) (hnd : (fields.map Prod.fst).Nodup)
    (k v : String) :
    (k, v) ∈ flattenPairs fields ↔
      ∃ pv, (k, pv) ∈ fields ∧ pv ≠ PyVal.atom PyAtom.none ∧
        pyStrip (pyStr pv) = v ∧ v ≠ "" := by
  unfold flattenPairs
  rw [List.mem_filterMap]
  constructor
  · rintro ⟨a, _, hfa⟩
    cases hg : dictGet fields a with
    | none =>
      rw [hg] at hfa
      exact Option.noConfusion hfa
    | some pv =>
      rw [hg] at hfa
      dsimp only at hfa
      by_cases hne : pv = PyVal.atom PyAtom.none
      · rw [if_pos hne] at hfa
        exact Option.noConfusion hfa
      · rw [if_neg hne] at hfa
        by_cases hs : pyStrip (pyStr pv) = ""
        · rw [if_pos hs] at hfa
          exact Option.noConfusion hfa
        · rw [if_neg hs] at hfa
          injection hfa with hkv
          have hak : a = k := congrArg Prod.fst hkv
          have hsv : pyStrip (pyStr pv) = v := congrArg Prod.snd hkv
          refine ⟨pv, ?_, hne, hsv, ?_⟩
          · exact (dictGet_eq_some_iff fields hnd k pv).mp (hak ▸ hg)
          · rw [← hsv]
            exact hs
  · rintro ⟨pv, hmem, hne, hv, hvne⟩
    refine ⟨k, ?_, ?_⟩
    · unfold sortedKeys
      rw [mem_sortStr]
      exact List.mem_map_of_mem Prod.fst hmem
    · rw [(dictGet_eq_some_iff fields hnd k pv).mpr hmem]
      dsimp only
      rw [if_neg hne, if_neg (by rw [hv]; exact hvne), hv]

/-- Claim C6 (amended): the `all_fields_kv` overflow column is `" | "`
joined `key=value` pairs over the sorted field keys, keeping exactly the
fields whose value is not `None` and not blank after stripping, with the
value stripped; fields with `None` or blank values are dropped and nested
section data is never included (the function receives only the fields
mapping), so the column does not preserve the complete submission. -/
theorem c6_overflow_amended (fields : PyDict) (hnd : (fields.map Prod.fst).Nodup)
    (k v : String) :
    ((k, v) ∈ flattenPairs fields ↔
      ∃ pv, (k, pv) ∈ fields ∧ pv ≠ PyVal.atom PyAtom.none ∧
        pyStrip (pyStr pv) = v ∧ v ≠ "") ∧
    flatten_kv fields =
      String.intercalate " | " ((flattenPairs fields).map (fun p => p.1 ++ "=" ++ p.2)) :=
  ⟨mem_flattenPairs_iff fields hnd k v, rfl⟩

/-- Claim C6 witness: a kept pair of a concrete field set. -/
theorem c6_witness :
    ("a", "x") ∈ flattenPairs
      [("b", PyVal.atom (PyAtom.int 2)), ("a", PyVal.atom (PyAtom.str "x"))] :=
  ((c6_overflow_amended
      [("b", PyVal.atom (PyAtom.int 2)), ("a", PyVal.atom (PyAtom.str "x"))]
      (by decide) "a" "x").1).mpr
    ⟨PyVal.atom (PyAtom.str "x"), by decide, by decide, rfl, by decide⟩

/-- Claim C1 (amended): for every consistent ledger and every timestamp
whose derived year lies in [1000, 9999] (so that the unpadded year renders
as exactly four digits; outside that range the produced id escapes the
scan pattern and the counterexample applies), the allocator returns the id
whose seq is one plus the maximum seq among rows whose `complaint_id`
matches the pattern for the derived year; that id differs from every
existing row's id, appending it raises the scanned maximum by exactly one
— so sequential allocation is unique and strictly increasing by one —
allocation starts at seq 01 on an empty or absent ledger, and the spec's
concrete `CC2025-08` / `CC2024-01` examples hold. -/
theorem c1_sequential_allocation_amended (now : Nat) (ts : String) (f : CsvFile)
    (y M : Nat)
    (hy : y = year_from_timestamp now ts)
    (hM : M = max_seq_for_year (LedgerStore.readable f) y)
    (hy1 : 1000 ≤ y) (hy2 : y ≤ 9999) (hMle : M ≤ 98) :
    M = listMax (matchingSeqs y f.header f.rows) ∧
    next_complaint_id now (LedgerStore.readable f) ts = Except.ok (cidFmt y (M + 1)) ∧
    (∀ row ∈ f.rows,
      pyStrip (pyOr (csvGet f.header row "complaint_id") "") ≠ cidFmt y (M + 1)) ∧
    (f.header = CSV_COLUMNS → ∀ created recips flds pdf dfp dsl gru,
      max_seq_for_year (LedgerStore.readable ⟨CSV_COLUMNS, f.rows ++
          [metadataRow (cidFmt y (M + 1)) ts created recips flds pdf dfp dsl gru]⟩) y
        = M + 1) ∧
    next_complaint_id now (LedgerStore.readable ⟨f.header, []⟩) ts =
      Except.ok (cidFmt y 1) ∧
    next_complaint_id now LedgerStore.absent ts = Except.ok (cidFmt y 1) ∧
    next_complaint_id 2026 (LedgerStore.readable
        ⟨CSV_COLUMNS, [["CC2025-01"], ["CC2025-07"]]⟩) "2025-03-01" =
      Except.ok "CC2025-08" ∧
    next_complaint_id 2026 (LedgerStore.readable
        ⟨CSV_COLUMNS, [["CC2025-01"], ["CC2025-07"]]⟩) "2024-06-01" =
      Except.ok "CC2024-01" := by
  refine ⟨?_, ?_, ?_, ?_, ?_, ?_, rfl, rfl⟩
  · rw [hM]
    exact max_seq_eq_listMax y f
  · simp only [next_complaint_id]
    rw [← hy, ← hM, if_neg (by omega)]
  · intro row hrow heq
    have hmid : matchId (pyStrip (pyOr (csvGet f.header row "complaint_id") "")) =
        some (y, M + 1) := by
      rw [heq]
      exact matchId_cidFmt y (M + 1) hy1 hy2 (by omega)
    have hms : matchedSeq y f.header row = some (M + 1) := by
      unfold matchedSeq
      rw [hmid]
      dsimp only
      rw [if_pos rfl]
    have hmem : (M + 1) ∈ matchingSeqs y f.header f.rows :=
      List.mem_filterMap.mpr ⟨row, hrow, hms⟩
    have hle := le_listMax_of_mem _ _ hmem
    rw [← max_seq_eq_listMax y f, ← hM] at hle
    omega
  · intro hhdr created recips flds pdf dfp dsl gru
    have hfold : f.rows.foldl (scanStep y CSV_COLUMNS) 0 = M := by
      rw [hM]
      show f.rows.foldl (scanStep y CSV_COLUMNS) 0 = f.rows.foldl (scanStep y f.header) 0
      rw [hhdr]
    show (f.rows ++ [metadataRow (cidFmt y (M + 1)) ts created recips flds pdf dfp
        dsl gru]).foldl (scanStep y CSV_COLUMNS) 0 = M + 1
    rw [List.foldl_append, hfold, List.foldl_cons, List.foldl_nil]
    simp only [scanStep]
    rw [show csvGet CSV_COLUMNS (metadataRow (cidFmt y (M + 1)) ts created recips flds
        pdf dfp dsl gru) "complaint_id" = some (cidFmt y (M + 1)) from rfl]
    rw [show pyOr (some (cidFmt y (M + 1))) "" = cidFmt y (M + 1) from by
      simp only [pyOr]
      rw [if_neg (cidFmt_ne_empty y (M + 1))]]
    rw [pyStrip_cidFmt y (M + 1) hy1 hy2 (by omega)]
    rw [matchId_cidFmt y (M + 1) hy1 hy2 (by omega)]
    dsimp only
    rw [if_pos rfl, if_pos (by omega)]
  · simp only [next_complaint_id]
    rw [← hy]
    rw [show max_seq_for_year (LedgerStore.readable ⟨f.header, []⟩) y = 0 from rfl]
    rw [if_neg (by omega)]
  · simp only [next_complaint_id]
    rw [← hy]
    rw [show max_seq_for_year LedgerStore.absent y = 0 from rfl]
    rw [if_neg (by omega)]

/-- Claim C1 witness: the allocator on the spec's example ledger. -/
theorem c1_witness :
    next_complaint_id 2026 (LedgerStore.readable
        ⟨CSV_COLUMNS, [["CC2025-01"], ["CC2025-07"]]⟩) "2025-03-01" =
      Except.ok "CC2025-08" :=
  (c1_sequential_allocation_amended 2026 "2025-03-01"
      ⟨CSV_COLUMNS, [["CC2025-01"], ["CC2025-07"]]⟩ 2025 7 rfl rfl
      (by decide) (by decide) (by decide)).2.2.2.2.2.2.1

/-- Claim C4 witness: allocation with `CC2025-99` present raises the
sequence-exhausted error. -/
theorem c4_witness :
    next_complaint_id 2026
        (LedgerStore.readable ⟨["complaint_id"], [["CC2025-99"]]⟩) "2025-01-01" =
      Except.error (AllocError.sequenceExhausted 2025) :=
  (c4_sequence_exhaustion 2026
    (LedgerStore.readable ⟨["complaint_id"], [["CC2025-99"]]⟩) "2025-01-01").2.2

/-- Claim C7 witness: a row that does not match the id pattern is ignored
by the scan. -/
theorem c7_witness :
    max_seq_for_year (LedgerStore.readable ⟨["complaint_id"], [["not-an-id"]]⟩) 2025 =
      max_seq_for_year (LedgerStore.readable ⟨["complaint_id"], []⟩) 2025 :=
  (c7_scan_ignores_and_fails_safe 2025 ["complaint_id"] [] [] ["not-an-id"]
    (Or.inl rfl)).1

end CustomerCC
